import Mathlib

/-!
Verification of the native-link store / scheduler / worker core against its
specification.  Rust code is shallowly embedded: machine integers become
Nat/Int, fallible calls return Except, the async tasks the claims speak about
are modelled as sequential programs over explicit state.
-/

namespace NativeLink

/-! ## Error model

The error crate itself is not part of the analysed sources; only its surface
(codes, message chaining, merging) is visible through the callers. -/

/-- Canonical error codes used by the analysed code paths (gRPC codes). -/
inductive Code where
  | notFound
  | invalidArgument
  | internal
  | unavailable
  | failedPrecondition
  | aborted
deriving DecidableEq, Repr

/-- An error: a canonical code plus the chained, ordered message context. -/
structure Error where
  code : Code
  messages : List String
deriving DecidableEq, Repr

/-- Modelled from the spec: the error crate (not under src/) merges two errors
into one so that "no failure is silently dropped" (spec section 7); the merged
error keeps the first error's code and the message frames of both. -/
def Error.merge (e o : Error) : Error :=
  { code := e.code, messages := e.messages ++ o.messages }

/-- Modelled from the spec: ResultExt::merge of the error crate (not under
src/).  An Err on the left absorbs an Err on the right into one merged error;
an Ok on the left yields the right result. -/
def mergeResult {α β : Type} : Except Error α → Except Error β → Except Error β
  | .error e, .error o => .error (e.merge o)
  | .error e, .ok _ => .error e
  | .ok _, other => other

/-- List.mapM specialised to Except, written out so proofs can unfold it.
Mirrors the source's try_for_each / ? propagation: the first error aborts the
whole call. -/
def mapME {α β : Type} (f : α → Except Error β) : List α → Except Error (List β)
  | [] => .ok []
  | x :: xs =>
    match f x with
    | .error e => .error e
    | .ok y =>
      match mapME f xs with
      | .error e => .error e
      | .ok ys => .ok (y :: ys)

/-! ## Hex encoding and DigestInfo (src/util/common.rs) -/

/-- Lowercase hex digit for a nibble, as produced by hex::encode. -/
def hexDigitChar (n : Nat) : Char :=
  if n < 10 then Char.ofNat (48 + n) else Char.ofNat (87 + n)

/-- hex::encode on a packed byte list: two lowercase digits per byte. -/
def hexEncodeList (bs : List Nat) : List Char :=
  bs.flatMap fun b => [hexDigitChar (b / 16), hexDigitChar (b % 16)]

/-- hex::encode as a String. -/
def hexEncode (bs : List Nat) : String :=
  String.mk (hexEncodeList bs)

/-- Value of one hex digit; hex::FromHex accepts digits and BOTH letter
cases (its val function matches the byte ranges b0-b9, ba-bf and bA-bF). -/
def hexNibble (c : Char) : Option Nat :=
  if 48 ≤ c.toNat ∧ c.toNat ≤ 57 then some (c.toNat - 48)
  else if 97 ≤ c.toNat ∧ c.toNat ≤ 102 then some (c.toNat - 87)
  else if 65 ≤ c.toNat ∧ c.toNat ≤ 70 then some (c.toNat - 55)
  else none

/-- Decode a character list two hex digits at a time into bytes. -/
def hexPairsToBytes : List Char → Option (List Nat)
  | [] => some []
  | c1 :: c2 :: rest =>
    match hexNibble c1, hexNibble c2, hexPairsToBytes rest with
    | some n1, some n2, some bs => some ((16 * n1 + n2) :: bs)
    | _, _, _ => none
  | [_] => none

/-- <[u8; 32]>::from_hex: exactly 64 hex characters decode to 32 bytes. -/
def fromHex32 (s : String) : Option (List Nat) :=
  if s.length = 64 then hexPairsToBytes s.data else none

/-- The wire Digest proto: a hex hash string and a signed size. -/
structure ProtoDigest where
  hash : String
  sizeBytes : Int
deriving DecidableEq, Repr

/-- DigestInfo from src/util/common.rs.  strHash models the LazyTransform
cache: the initial Option value; str() resolves it lazily. -/
structure DigestInfo where
  sizeBytes : Int
  packedHash : List Nat
  trustSize : Bool
  strHash : Option String
deriving DecidableEq, Repr

/-- PartialEq for DigestInfo compares only (size_bytes, packed_hash); the
trust flag and the cached string are ignored.  All map keying, sorting and
binary searching in the analysed code goes through this equality. -/
def DigestInfo.beq (a b : DigestInfo) : Bool :=
  a.sizeBytes == b.sizeBytes && a.packedHash == b.packedHash

/-- DigestInfo::str (also hash_str): the cached string if one was stored at
construction, otherwise hex::encode of the packed hash. -/
def DigestInfo.str (d : DigestInfo) : String :=
  d.strHash.getD (hexEncode d.packedHash)

/-- DigestInfo::try_new: parse the hex hash; the cache starts empty
(LazyTransform::new(None)), trust_size is false. -/
def DigestInfo.tryNew (hash : String) (sizeBytes : Int) : Except Error DigestInfo :=
  match fromHex32 hash with
  | some packed =>
    .ok { sizeBytes := sizeBytes, packedHash := packed, trustSize := false, strHash := none }
  | none => .error { code := .invalidArgument, messages := ["Invalid sha256 hash: " ++ hash] }

/-- TryFrom<Digest> for DigestInfo: parse the hex hash and seed the string
cache with the client's original hash string, verbatim
(LazyTransform::new(Some(digest.hash))). -/
def DigestInfo.tryFromProto (pd : ProtoDigest) : Except Error DigestInfo :=
  match fromHex32 pd.hash with
  | some packed =>
    .ok { sizeBytes := pd.sizeBytes, packedHash := packed, trustSize := false,
          strHash := some pd.hash }
  | none => .error { code := .invalidArgument, messages := ["Invalid sha256 hash: " ++ pd.hash] }

/-- A character hex::encode can produce: a digit or a lowercase a-f. -/
def isLowerHexChar (c : Char) : Bool :=
  ('0' ≤ c && c ≤ '9') || ('a' ≤ c && c ≤ 'f')

/-! ## MemoryStore (src/cas/store/memory_store.rs) -/

/-- Blob contents as a byte list. -/
abbrev Bytes := List Nat

/-- UploadSizeInfo from the store trait. -/
inductive UploadSizeInfo where
  | exactSize (n : Nat)
  | maxSize (n : Nat)
deriving DecidableEq, Repr

/-- The MemoryStore state: the contents of its EvictingMap.  The eviction
bookkeeping is an external collaborator; what the claims consume is the
digest-to-bytes map it maintains, keyed by DigestInfo's (hash, size)
equality, most recent insert first. -/
structure MemoryStore where
  entries : List (DigestInfo × Bytes)
deriving DecidableEq, Repr

/-- EvictingMap::get. -/
def MemoryStore.get (st : MemoryStore) (d : DigestInfo) : Option Bytes :=
  (st.entries.find? fun p => p.1.beq d).map (·.2)

/-- EvictingMap::insert: replaces any entry with an equal key. -/
def MemoryStore.insert (st : MemoryStore) (d : DigestInfo) (v : Bytes) : MemoryStore :=
  ⟨(d, v) :: st.entries.filter fun p => !(p.1.beq d)⟩

/-- MemoryStore::has_with_results via EvictingMap::sizes_for_keys: one slot
per input digest, Some(len) when present, None when absent; never fails. -/
def MemoryStore.hasWithResults (st : MemoryStore) (digests : List DigestInfo) :
    Except Error (List (Option Nat)) :=
  .ok (digests.map fun d => (st.get d).map (·.length))

/-- Store::has for a single digest (has_with_results on a one-element slice). -/
def MemoryStore.hasOpt (st : MemoryStore) (d : DigestInfo) : Option Nat :=
  (st.get d).map (·.length)

/-- MemoryStore::update: collect the whole stream (the size hint only guides
preallocation, the buffer is resized to the actual length) and insert it. -/
def MemoryStore.update (st : MemoryStore) (d : DigestInfo) (readerBytes : Bytes)
    (_sizeInfo : UploadSizeInfo) : Except Error MemoryStore :=
  .ok (st.insert d readerBytes)

/-- What a get_part call can do, observed through get_part_unchunked: deliver
the bytes written before EOF, return an error, or panic the task. -/
inductive GetPartOutcome where
  | ok (data : Bytes)
  | err (e : Error)
  | panic
deriving DecidableEq, Repr

/-- Whether an outcome is an InvalidArgument error. -/
def GetPartOutcome.isInvalidArgumentErr : GetPartOutcome → Bool
  | .err e => e.code == .invalidArgument
  | _ => false

/-- MemoryStore::get_part.  An absent digest is a NotFound error.  When the
digest is present the source computes default_len = value.len() - offset on
usize with no bound check: an offset beyond the length underflows, which
panics (and in a wrapping build the subsequent Bytes::slice is out of range
and panics as well); the model records that as a panic.  Otherwise the slice
[offset, offset+length) is sent followed by EOF. -/
def MemoryStore.getPart (st : MemoryStore) (d : DigestInfo) (offset : Nat)
    (length : Option Nat) : GetPartOutcome :=
  match st.get d with
  | none => .err { code := .notFound, messages := ["Hash " ++ d.str ++ " not found"] }
  | some value =>
    if value.length < offset then .panic
    else
      let defaultLen := value.length - offset
      let len := min (length.getD defaultLen) defaultLen
      .ok ((value.drop offset).take len)

theorem DigestInfo.beq_refl (d : DigestInfo) : d.beq d = true := by
  simp [DigestInfo.beq]

theorem MemoryStore.get_insert (st : MemoryStore) (d : DigestInfo) (v : Bytes) :
    (st.insert d v).get d = some v := by
  simp [MemoryStore.insert, MemoryStore.get, List.find?, DigestInfo.beq_refl]

/-- C1: for the MemoryStore, for every digest d and byte sequence bytes, after
update(d, bytes) completes successfully, get_part_unchunked(d, 0, None)
returns exactly bytes (round-trip). -/
theorem c1_memory_store_round_trip (st : MemoryStore) (d : DigestInfo) (bytes : Bytes)
    (sizeInfo : UploadSizeInfo) :
    ∃ st2, st.update d bytes sizeInfo = .ok st2 ∧
      st2.getPart d 0 none = .ok bytes := by
  refine ⟨st.insert d bytes, rfl, ?_⟩
  simp [MemoryStore.getPart, MemoryStore.get_insert]

/-- C2: for every digest and offset, MemoryStore::get_part fails NotFound when
the digest is absent; when the digest is present, an offset beyond the stored
size does NOT produce an InvalidArgument error: the unchecked usize
subtraction value.len() - offset panics instead (amended claim).  Offsets up
to the size succeed. -/
theorem c2_get_part_absent_and_oob (st : MemoryStore) (d : DigestInfo) (offset : Nat)
    (length : Option Nat) :
    (st.get d = none →
      st.getPart d offset length =
        .err { code := .notFound, messages := ["Hash " ++ d.str ++ " not found"] }) ∧
    (∀ value, st.get d = some value → value.length < offset →
      st.getPart d offset length = .panic) ∧
    (∀ value, st.get d = some value → offset ≤ value.length →
      st.getPart d offset length =
        .ok ((value.drop offset).take (min (length.getD (value.length - offset))
          (value.length - offset)))) := by
  refine ⟨fun h => ?_, fun value h hlt => ?_, fun value h hle => ?_⟩
  · simp [MemoryStore.getPart, h]
  · simp [MemoryStore.getPart, h, hlt]
  · simp [MemoryStore.getPart, h, Nat.not_lt.mpr hle]

/-- A store holding a single one-byte blob, for the C2 counterexample. -/
def digestC2 : DigestInfo :=
  { sizeBytes := 1, packedHash := List.replicate 32 0, trustSize := false, strHash := none }

/-- The concrete MemoryStore of the C2 counterexample. -/
def storeC2 : MemoryStore := ⟨[(digestC2, [7])]⟩

/-- C2 counterexample: with a stored blob of size 1 and offset 2 (offset
exceeds size), get_part panics; it does not fail with InvalidArgument as the
claim states. -/
theorem c2_counterexample :
    storeC2.getPart digestC2 2 none = .panic ∧
    (storeC2.getPart digestC2 2 none).isInvalidArgumentErr = false := by
  constructor <;> rfl

/-! ## GrpcStore (src/cas/store/grpc_store.rs) -/

/-- The store_type flag of a GrpcStore. -/
inductive StoreType where
  | cas
  | ac
deriving DecidableEq, Repr

/-- An output file entry of a proto ActionResult; only the digest matters to
the analysed code paths (path and mode are never read there). -/
structure OutputFile where
  digest : Option ProtoDigest
deriving DecidableEq, Repr

/-- An output directory entry of a proto ActionResult; only the tree digest
matters to the analysed code paths. -/
structure OutputDirectory where
  treeDigest : Option ProtoDigest
deriving DecidableEq, Repr

/-- The REv2 ActionResult proto, restricted to the fields the analysed code
reads: output files and output directories. -/
structure ProtoActionResult where
  outputFiles : List OutputFile
  outputDirectories : List OutputDirectory
deriving DecidableEq, Repr

/-- Modelled from the spec: the upstream servers a GrpcStore talks to (their
code is not part of this repository).  The action cache maps a digest to an
ActionResult, the CAS is a set of present digests. -/
structure GrpcUpstream where
  acResults : List (DigestInfo × ProtoActionResult)
  casDigests : List DigestInfo
deriving DecidableEq, Repr

/-- Modelled from the spec: GetActionResult against the upstream AC.  An AC
miss surfaces as a NotFound error (spec section 7), which the retrying
wrapper does not retry and perform_request returns as-is. -/
def GrpcUpstream.getActionResult (u : GrpcUpstream) (d : DigestInfo) :
    Except Error ProtoActionResult :=
  match (u.acResults.find? fun p => p.1.beq d).map (·.2) with
  | some ar => .ok ar
  | none => .error { code := .notFound, messages := ["in GrpcStore::get_action_result"] }

/-- Modelled from the spec: FindMissingBlobs against the upstream CAS returns
the queried digests that are not present. -/
def GrpcUpstream.findMissingBlobs (u : GrpcUpstream) (ds : List DigestInfo) :
    List DigestInfo :=
  ds.filter fun d => !(u.casDigests.any fun c => c.beq d)

/-- usize::MAX on a 64-bit target. -/
def usizeMax : Nat := 2 ^ 64 - 1

/-- GrpcStore::has_with_results.  On an AC-typed store each digest is looked
up with GetActionResult; a hit writes Some(usize::MAX) into its slot and the
first lookup failure (an upstream NotFound included) aborts the whole call.
On a CAS-typed store one FindMissingBlobs request decides every slot: None
for a missing digest, Some(size_bytes as usize) otherwise, where a negative
size fails the usize conversion. -/
def GrpcStore.hasWithResults (storeType : StoreType) (u : GrpcUpstream)
    (digests : List DigestInfo) : Except Error (List (Option Nat)) :=
  match storeType with
  | .ac =>
    mapME (fun d => (u.getActionResult d).map fun _ => some usizeMax) digests
  | .cas =>
    let missing := u.findMissingBlobs digests
    mapME (fun d =>
      if missing.any fun m => m.beq d then .ok none
      else if d.sizeBytes < 0 then
        .error { code := .internal, messages := ["Could not convert size_bytes to usize"] }
      else .ok (some d.sizeBytes.toNat)) digests

theorem mapME_ok_forall {α β : Type} (f : α → Except Error β) (l : List α)
    (r : List β) (h : mapME f l = .ok r) :
    r.length = l.length ∧ (∀ x ∈ l, ∃ y, f x = .ok y ∧ y ∈ r) ∧
      (∀ y ∈ r, ∃ x, x ∈ l ∧ f x = .ok y) := by
  induction l generalizing r with
  | nil =>
    cases h
    simp
  | cons x xs ih =>
    unfold mapME at h
    cases hx : f x with
    | error e => rw [hx] at h; cases h
    | ok y =>
      rw [hx] at h
      cases hxs : mapME f xs with
      | error e => rw [hxs] at h; cases h
      | ok ys =>
        rw [hxs] at h
        cases h
        obtain ⟨hlen, hall, hrev⟩ := ih ys hxs
        refine ⟨by simp [hlen], ?_, ?_⟩
        · intro a ha
          rcases List.mem_cons.mp ha with rfl | ha
          · exact ⟨y, hx, List.mem_cons_self _ _⟩
          · obtain ⟨z, hz, hzr⟩ := hall a ha
            exact ⟨z, hz, List.mem_cons_of_mem _ hzr⟩
        · intro b hb
          rcases List.mem_cons.mp hb with rfl | hb
          · exact ⟨x, List.mem_cons_self _ _, hx⟩
          · obtain ⟨z, hz, hzr⟩ := hrev b hb
            exact ⟨z, List.mem_cons_of_mem _ hz, hzr⟩

theorem mapME_eq_ok_of_forall {α β : Type} (f : α → Except Error β) (l : List α)
    (g : α → β) (h : ∀ x ∈ l, f x = .ok (g x)) :
    mapME f l = .ok (l.map g) := by
  induction l with
  | nil => rfl
  | cons x xs ih =>
    unfold mapME
    rw [h x (List.mem_cons_self _ _), ih fun a ha => h a (List.mem_cons_of_mem _ ha)]
    rfl

/-- C10: on an AC-typed GrpcStore, has_with_results never reports a real blob
size: whenever the call succeeds, every result slot (one per queried digest)
holds Some(usize::MAX), and every queried digest's action result does exist
upstream. -/
theorem c10_ac_has_reports_usize_max (u : GrpcUpstream) (digests : List DigestInfo)
    (results : List (Option Nat))
    (h : GrpcStore.hasWithResults .ac u digests = .ok results) :
    results.length = digests.length ∧
    (∀ r ∈ results, r = some usizeMax) ∧
    (∀ d ∈ digests, ∃ ar, u.getActionResult d = .ok ar) := by
  obtain ⟨hlen, hall, hrev⟩ := mapME_ok_forall _ _ _ h
  refine ⟨hlen, ?_, ?_⟩
  · intro r hr
    obtain ⟨d, _, hd⟩ := hrev r hr
    cases har : u.getActionResult d with
    | error e => rw [har] at hd; simp [Except.map] at hd
    | ok ar => rw [har] at hd; simp [Except.map] at hd; exact hd.symm
  · intro d hd
    obtain ⟨y, hy, _⟩ := hall d hd
    cases har : u.getActionResult d with
    | error e => rw [har] at hy; simp [Except.map] at hy
    | ok ar => exact ⟨ar, rfl⟩

theorem DigestInfo.beq_iff (a b : DigestInfo) :
    a.beq b = true ↔ a.sizeBytes = b.sizeBytes ∧ a.packedHash = b.packedHash := by
  simp [DigestInfo.beq]

theorem DigestInfo.beq_trans_left (a b c : DigestInfo) (hab : a.beq b = true)
    (hcb : c.beq b = true) : a.beq c = true := by
  rw [DigestInfo.beq_iff] at *
  exact ⟨hab.1.trans hcb.1.symm, hab.2.trans hcb.2.symm⟩

theorem mapME_error_exists {α β : Type} (f : α → Except Error β) (l : List α)
    (e : Error) (h : mapME f l = .error e) : ∃ x ∈ l, f x = .error e := by
  induction l with
  | nil => cases h
  | cons x xs ih =>
    unfold mapME at h
    cases hx : f x with
    | error e2 =>
      rw [hx] at h
      cases h
      exact ⟨x, List.mem_cons_self _ _, hx⟩
    | ok y =>
      rw [hx] at h
      cases hxs : mapME f xs with
      | error e2 =>
        rw [hxs] at h
        cases h
        obtain ⟨z, hz, hze⟩ := ih hxs
        exact ⟨z, List.mem_cons_of_mem _ hz, hze⟩
      | ok ys => rw [hxs] at h; cases h

theorem mapME_error_of_mem {α β : Type} (f : α → Except Error β) (l : List α)
    (x : α) (e : Error) (hx : x ∈ l) (hfe : f x = .error e) :
    ∃ e2, mapME f l = .error e2 := by
  induction l with
  | nil => cases hx
  | cons a as ih =>
    unfold mapME
    cases ha : f a with
    | error e2 => exact ⟨e2, rfl⟩
    | ok y =>
      rcases List.mem_cons.mp hx with rfl | hx2
      · rw [ha] at hfe; cases hfe
      · obtain ⟨e2, he2⟩ := ih hx2
        rw [he2]
        exact ⟨e2, rfl⟩

/-- C3 (amended): MemoryStore::has_with_results always succeeds and fills each
slot with Some(size) or None by presence; a CAS-typed GrpcStore (with
representable sizes) does the same against the upstream CAS; but an AC-typed
GrpcStore fails the whole call as soon as one queried action result is
missing upstream (the NotFound lookup error is propagated), so for it the
claim's "never fails on a missing blob" does not hold. -/
theorem c3_has_with_results_amended :
    (∀ (st : MemoryStore) (digests : List DigestInfo),
      st.hasWithResults digests = .ok (digests.map fun d => (st.get d).map (·.length))) ∧
    (∀ (u : GrpcUpstream) (digests : List DigestInfo),
      (∀ d ∈ digests, 0 ≤ d.sizeBytes) →
      GrpcStore.hasWithResults .cas u digests =
        .ok (digests.map fun d =>
          if u.casDigests.any (fun c => c.beq d) then some d.sizeBytes.toNat else none)) ∧
    (∀ (u : GrpcUpstream) (digests : List DigestInfo) (d : DigestInfo),
      d ∈ digests → (u.acResults.find? fun p => p.1.beq d) = none →
      ∃ e, GrpcStore.hasWithResults .ac u digests = .error e ∧ e.code = .notFound) := by
  refine ⟨fun st digests => rfl, fun u digests hsz => ?_, fun u digests d hd hmiss => ?_⟩
  · unfold GrpcStore.hasWithResults
    apply mapME_eq_ok_of_forall
    intro d hd
    by_cases hpres : u.casDigests.any (fun c => c.beq d) = true
    · have hnotmiss : ((u.findMissingBlobs digests).any fun m => m.beq d) = false := by
        rw [Bool.eq_false_iff]
        intro hany
        obtain ⟨m, hm, hmd⟩ := List.any_eq_true.mp hany
        obtain ⟨c, hc, hcd⟩ := List.any_eq_true.mp hpres
        obtain ⟨hm2, hmabs⟩ := List.mem_filter.mp hm
        have : u.casDigests.any (fun c => c.beq m) = true :=
          List.any_eq_true.mpr ⟨c, hc, DigestInfo.beq_trans_left c d m hcd hmd⟩
        simp [this] at hmabs
      have hnn : ¬ d.sizeBytes < 0 := not_lt.mpr (hsz d hd)
      simp [hnotmiss, hpres, hnn]
    · have hmiss2 : ((u.findMissingBlobs digests).any fun m => m.beq d) = true := by
        apply List.any_eq_true.mpr
        refine ⟨d, ?_, DigestInfo.beq_refl d⟩
        exact List.mem_filter.mpr ⟨hd, by simp [hpres]⟩
      simp [hmiss2, hpres]
  · have hfe : ((u.getActionResult d).map fun _ => some usizeMax) =
        .error { code := .notFound, messages := ["in GrpcStore::get_action_result"] } := by
      unfold GrpcUpstream.getActionResult
      rw [hmiss]
      rfl
    obtain ⟨e2, he2⟩ := mapME_error_of_mem
      (fun d => (u.getActionResult d).map fun _ => some usizeMax) digests d _ hd hfe
    obtain ⟨x, _, hxe⟩ := mapME_error_exists
      (fun d => (u.getActionResult d).map fun _ => some usizeMax) digests e2 he2
    refine ⟨e2, by unfold GrpcStore.hasWithResults; exact he2, ?_⟩
    unfold GrpcUpstream.getActionResult at hxe
    cases hfind : (u.acResults.find? fun p => p.1.beq x).map (·.2) with
    | none => rw [hfind] at hxe; cases hxe; rfl
    | some ar => rw [hfind] at hxe; cases hxe

/-- The digest of the C3 counterexample. -/
def digestC3 : DigestInfo :=
  { sizeBytes := 1, packedHash := List.replicate 32 1, trustSize := false, strHash := none }

/-- C3 counterexample: an AC-typed GrpcStore whose upstream lacks the queried
digest fails the whole has_with_results call with the NotFound lookup error
instead of writing None into the result slot, falsifying "never because a
queried blob is missing". -/
theorem c3_counterexample :
    GrpcStore.hasWithResults .ac ⟨[], []⟩ [digestC3] =
      .error { code := .notFound, messages := ["in GrpcStore::get_action_result"] } := by
  rfl

/-- The upstream of the C10 witness: one action result present. -/
def upstreamC10 : GrpcUpstream :=
  ⟨[({ sizeBytes := 4, packedHash := List.replicate 32 2, trustSize := false,
       strHash := none }, ⟨[], []⟩)], []⟩

/-- The digest of the C10 witness. -/
def digestC10 : DigestInfo :=
  { sizeBytes := 4, packedHash := List.replicate 32 2, trustSize := false, strHash := none }

/-- C10 witness: the AC-typed has_with_results on a present digest succeeds
and reports usize::MAX, not the real size 4. -/
theorem c10_witness :
    [some usizeMax].length = [digestC10].length ∧
    (∀ r ∈ [some usizeMax], r = some usizeMax) ∧
    (∀ d ∈ [digestC10], ∃ ar, upstreamC10.getActionResult d = .ok ar) :=
  c10_ac_has_reports_usize_max upstreamC10 [digestC10] [some usizeMax] (by rfl)

theorem hexNibble_lt (c : Char) (n : Nat) (h : hexNibble c = some n) : n < 16 := by
  unfold hexNibble at h
  split_ifs at h with h1 h2 h3 <;> cases h <;> omega

theorem hexPairsToBytes_lt :
    ∀ (cs : List Char) (bs : List Nat), hexPairsToBytes cs = some bs → ∀ b ∈ bs, b < 256
  | [], bs, h => by cases h; simp
  | [_], bs, h => by cases h
  | c1 :: c2 :: rest, bs, h => by
    unfold hexPairsToBytes at h
    cases h1 : hexNibble c1 with
    | none => rw [h1] at h; cases h
    | some n1 =>
      cases h2 : hexNibble c2 with
      | none => rw [h1, h2] at h; cases h
      | some n2 =>
        cases h3 : hexPairsToBytes rest with
        | none => rw [h1, h2, h3] at h; cases h
        | some tail =>
          rw [h1, h2, h3] at h
          cases h
          intro b hb
          rcases List.mem_cons.mp hb with rfl | hb
          · have := hexNibble_lt c1 n1 h1
            have := hexNibble_lt c2 n2 h2
            omega
          · exact hexPairsToBytes_lt rest tail h3 b hb

theorem hexDigitChar_lower : ∀ n < 16, isLowerHexChar (hexDigitChar n) = true := by
  decide

theorem hexEncodeList_lower (bs : List Nat) (h : ∀ b ∈ bs, b < 256) :
    ∀ c ∈ hexEncodeList bs, isLowerHexChar c = true := by
  intro c hc
  rw [hexEncodeList, List.mem_flatMap] at hc
  obtain ⟨b, hb, hcb⟩ := hc
  have hb256 := h b hb
  have hdiv : b / 16 < 16 := by omega
  have hmod : b % 16 < 16 := Nat.mod_lt _ (by norm_num)
  simp only [List.mem_cons, List.not_mem_nil, or_false] at hcb
  rcases hcb with rfl | rfl
  · exact hexDigitChar_lower _ hdiv
  · exact hexDigitChar_lower _ hmod

/-- C8 (amended): a DigestInfo built by try_new renders as the lowercase hex
encoding of its 32-byte packed hash (the lazy cache starts empty), but one
built from a proto Digest returns the client's original hash string verbatim
(the cache is seeded with it), so the representation depends on how the
DigestInfo was constructed and is lowercase only when the client string was. -/
theorem c8_str_amended :
    (∀ (hash : String) (sz : Int) (d : DigestInfo),
      DigestInfo.tryNew hash sz = .ok d →
      d.str = hexEncode d.packedHash ∧
      ∀ c ∈ (hexEncode d.packedHash).data, isLowerHexChar c = true) ∧
    (∀ (pd : ProtoDigest) (d : DigestInfo),
      DigestInfo.tryFromProto pd = .ok d → d.str = pd.hash) := by
  constructor
  · intro hash sz d h
    unfold DigestInfo.tryNew at h
    cases hfh : fromHex32 hash with
    | none => rw [hfh] at h; cases h
    | some packed =>
      rw [hfh] at h
      cases h
      refine ⟨rfl, ?_⟩
      unfold fromHex32 at hfh
      split_ifs at hfh with hlen
      exact fun c hc => hexEncodeList_lower packed (hexPairsToBytes_lt _ _ hfh) c hc
  · intro pd d h
    unfold DigestInfo.tryFromProto at h
    cases hfh : fromHex32 pd.hash with
    | none => rw [hfh] at h; cases h
    | some packed => rw [hfh] at h; cases h; rfl

/-- The uppercase (but valid) hex hash of the C8 counterexample. -/
def upperHashC8 : String := String.mk (List.replicate 64 'A')

/-- C8 counterexample: a proto Digest carrying the uppercase hash "AA...A"
converts successfully, but str() then returns the uppercase original, not the
(lowercase) hex encoding of the packed hash — refuting "hex encoding of the
32-byte packed hash ... lowercase, regardless of how the DigestInfo was
constructed". -/
theorem c8_counterexample :
    ((DigestInfo.tryFromProto ⟨upperHashC8, 1⟩).toOption.map DigestInfo.str =
      some upperHashC8) ∧
    (DigestInfo.tryFromProto ⟨upperHashC8, 1⟩).toOption.map DigestInfo.str ≠
      (DigestInfo.tryFromProto ⟨upperHashC8, 1⟩).toOption.map
        (fun d => hexEncode d.packedHash) := by
  constructor
  · rfl
  · decide

/-! ## PlatformProperties (src/cas/scheduler/platform_property_manager.rs) -/

/-- The typed value of one platform property. -/
inductive PlatformPropertyValue where
  | exact (s : String)
  | minimum (n : Nat)
  | priority (s : String)
  | unknown (s : String)
deriving DecidableEq, Repr

/-- PlatformPropertyValue::is_satisfied_by: equal values always satisfy; a
Minimum requirement is otherwise satisfied by a Minimum worker value at least
as large; Priority is satisfied by anything; Exact and Unknown by nothing
else. -/
def PlatformPropertyValue.isSatisfiedBy (self worker : PlatformPropertyValue) : Bool :=
  if self == worker then true
  else
    match self with
    | .minimum v =>
      match worker with
      | .minimum workerV => v ≤ workerV
      | _ => false
    | .priority _ => true
    | .exact _ | .unknown _ => false

/-- A PlatformProperties map; the HashMap is modelled as its entry list
(distinct keys). -/
structure PlatformProperties where
  properties : List (String × PlatformPropertyValue)
deriving DecidableEq, Repr

/-- HashMap::get on the entry list. -/
def lookupProp (props : List (String × PlatformPropertyValue)) (k : String) :
    Option PlatformPropertyValue :=
  (props.find? fun p => p.1 == k).map (·.2)

/-- PlatformProperties::is_satisfied_by: every required (key, value) must find
the key on the worker and be satisfied by the worker's value. -/
def PlatformProperties.isSatisfiedBy (self worker : PlatformProperties) : Bool :=
  self.properties.all fun kv =>
    match lookupProp worker.properties kv.1 with
    | some workerValue => kv.2.isSatisfiedBy workerValue
    | none => false

/-- The claim's satisfaction cases for a single required value, as C6 states
them: Exact needs an equal value, Minimum needs a Minimum worker value at
least as large, Priority is satisfied by mere key presence, Unknown is
satisfied only by an equal value. -/
def claimSatisfied (v workerValue : PlatformPropertyValue) : Prop :=
  match v with
  | .exact _ => workerValue = v
  | .minimum r => ∃ w, workerValue = .minimum w ∧ r ≤ w
  | .priority _ => True
  | .unknown _ => workerValue = v

theorem value_isSatisfiedBy_iff (v workerValue : PlatformPropertyValue) :
    v.isSatisfiedBy workerValue = true ↔ claimSatisfied v workerValue := by
  unfold PlatformPropertyValue.isSatisfiedBy
  by_cases h : v = workerValue
  · subst h
    rw [if_pos (by simp)]
    cases v <;> simp [claimSatisfied]
  · rw [if_neg (by simpa using h)]
    cases v <;> cases workerValue <;> simp_all [claimSatisfied] <;> try tauto

/-- C6: required.is_satisfied_by(worker) holds iff every required key is
present on the worker and its value satisfies the claim's per-variant rule:
Exact and Unknown need equal values, Minimum(r) needs a worker Minimum(w)
with w at least r, Priority only needs the key present. -/
theorem c6_is_satisfied_by_iff (required worker : PlatformProperties) :
    required.isSatisfiedBy worker = true ↔
      ∀ kv ∈ required.properties, ∃ workerValue,
        lookupProp worker.properties kv.1 = some workerValue ∧
        claimSatisfied kv.2 workerValue := by
  unfold PlatformProperties.isSatisfiedBy
  rw [List.all_eq_true]
  constructor
  · intro h kv hkv
    have := h kv hkv
    cases hlook : lookupProp worker.properties kv.1 with
    | none => rw [hlook] at this; cases this
    | some workerValue =>
      rw [hlook] at this
      exact ⟨workerValue, rfl, (value_isSatisfiedBy_iff _ _).mp this⟩
  · intro h kv hkv
    obtain ⟨workerValue, hlook, hsat⟩ := h kv hkv
    rw [hlook]
    exact (value_isSatisfiedBy_iff _ _).mpr hsat

/-! ## CacheLookupScheduler (src/cas/scheduler/cache_lookup_scheduler.rs)

The spawned cache-check task is modelled as a sequential program run to
completion: its inputs are the AC contents, the CAS contents (a non-GrpcStore
CAS, exercising the generic has-based branch of validate_outputs_exist), the
inner scheduler's response for this action, and the in-flight map before the
call; its outputs are every value observable on the returned watch channel
(initial value first), the in-flight map after the task finished, and whether
the inner scheduler was invoked. -/

/-- ActionInfoHashKey: (instance_name, digest, salt). -/
structure ActionInfoHashKey where
  instanceName : String
  digest : DigestInfo
  salt : Nat
deriving DecidableEq, Repr

/-- Hash-map equality on keys; the digest compares by (hash, size). -/
def ActionInfoHashKey.beq (a b : ActionInfoHashKey) : Bool :=
  a.instanceName == b.instanceName && a.digest.beq b.digest && a.salt == b.salt

/-- The slice of ActionInfo the CacheLookupScheduler reads. -/
structure ActionInfo where
  uniqueQualifier : ActionInfoHashKey
  skipCacheLookup : Bool
deriving DecidableEq, Repr

/-- Modelled from the spec: the internal ActionResult of action_messages (its
file is not under src/); only its Default value travels through the analysed
paths (inside the Error stage), so the fields are collapsed to the exit
code. -/
structure ActionResult where
  exitCode : Int
deriving DecidableEq, Repr

/-- ActionResult::default. -/
def ActionResult.default : ActionResult := { exitCode := 0 }

/-- ActionStage (spec section 3): the execution stages an ActionState can
hold; CompletedFromCache carries the proto ActionResult verbatim. -/
inductive ActionStage where
  | cacheCheck
  | queued
  | executing
  | completed (ar : ActionResult)
  | completedFromCache (ar : ProtoActionResult)
  | error (e : Error) (ar : ActionResult)
deriving DecidableEq, Repr

/-- Whether a stage is CompletedFromCache. -/
def ActionStage.isCompletedFromCache : ActionStage → Bool
  | .completedFromCache _ => true
  | _ => false

/-- ActionState: the unique qualifier plus the current stage. -/
structure ActionState where
  uniqueQualifier : ActionInfoHashKey
  stage : ActionStage
deriving DecidableEq, Repr

/-- get_action_from_store on a generic (non-GrpcStore) AC: fetch and decode
the ProtoActionResult at the digest, None on any failure.  The AC store is
modelled by its decoded contents. -/
def getActionFromStore (acStore : List (DigestInfo × ProtoActionResult))
    (actionDigest : DigestInfo) : Option ProtoActionResult :=
  (acStore.find? fun p => p.1.beq actionDigest).map (·.2)

/-- The digests an ActionResult requires in the CAS: every output file digest
chained with every output directory tree digest. -/
def requiredDigests (ar : ProtoActionResult) : List ProtoDigest :=
  ar.outputFiles.filterMap (·.digest) ++ ar.outputDirectories.filterMap (·.treeDigest)

/-- validate_outputs_exist on a generic (non-GrpcStore) CAS: every required
digest must convert and be reported present by has; any conversion failure or
miss fails the validation. -/
def validateOutputsExist (casStore : MemoryStore) (ar : ProtoActionResult) : Bool :=
  (requiredDigests ar).all fun pd =>
    match DigestInfo.tryFromProto pd with
    | .ok d => (casStore.hasOpt d).isSome
    | .error _ => false

/-- Membership of a key in the in-flight map. -/
def containsKey (m : List ActionInfoHashKey) (k : ActionInfoHashKey) : Bool :=
  m.any fun x => x.beq k

/-- HashMap::remove of a key. -/
def removeKey (m : List ActionInfoHashKey) (k : ActionInfoHashKey) :
    List ActionInfoHashKey :=
  m.filter fun x => !(x.beq k)

/-- HashMap::insert of a key (replacing an equal key). -/
def insertKey (m : List ActionInfoHashKey) (k : ActionInfoHashKey) :
    List ActionInfoHashKey :=
  k :: removeKey m k

/-- What one add_action call produces, observed after its cache-check task
has run to completion. -/
structure AddActionOutcome where
  emitted : List ActionState
  finalMap : List ActionInfoHashKey
  forwardedToInner : Bool
deriving DecidableEq, Repr

/-- CacheLookupScheduler::add_action.  skip_cache_lookup forwards directly.
Otherwise the watch channel starts at CacheCheck, the key is registered in
the in-flight map, and the task looks the action up in the AC: a hit with all
outputs present publishes CompletedFromCache and deregisters; any other case
forwards to the inner scheduler, proxying its states (or publishing an Error
stage when the inner add_action fails), then deregisters. -/
def CacheLookupScheduler.addAction (acStore : List (DigestInfo × ProtoActionResult))
    (casStore : MemoryStore) (innerResponse : Except Error (List ActionState))
    (mapBefore : List ActionInfoHashKey) (actionInfo : ActionInfo) :
    Except Error AddActionOutcome :=
  if actionInfo.skipCacheLookup then
    innerResponse.map fun states =>
      { emitted := states, finalMap := mapBefore, forwardedToInner := true }
  else
    let key := actionInfo.uniqueQualifier
    let initState : ActionState := { uniqueQualifier := key, stage := .cacheCheck }
    let map1 := insertKey mapBefore key
    let fallback : AddActionOutcome :=
      match innerResponse with
      | .ok states =>
        { emitted := initState :: states, finalMap := removeKey map1 key,
          forwardedToInner := true }
      | .error e =>
        { emitted := [initState,
            { uniqueQualifier := key, stage := .error e ActionResult.default }],
          finalMap := removeKey map1 key, forwardedToInner := true }
    match getActionFromStore acStore key.digest with
    | some protoActionResult =>
      if validateOutputsExist casStore protoActionResult then
        .ok { emitted := [initState,
                { uniqueQualifier := key, stage := .completedFromCache protoActionResult }],
              finalMap := removeKey map1 key, forwardedToInner := false }
      else .ok fallback
    | none => .ok fallback

theorem containsKey_removeKey (m : List ActionInfoHashKey) (k : ActionInfoHashKey) :
    containsKey (removeKey m k) k = false := by
  rw [Bool.eq_false_iff]
  intro h
  obtain ⟨x, hx, hxk⟩ := List.any_eq_true.mp h
  obtain ⟨_, hkeep⟩ := List.mem_filter.mp hx
  simp [hxk] at hkeep

/-- C4: with skip_cache_lookup false, add_action returns a subscription whose
first value is CacheCheck; the in-flight map holds no entry for the action's
hash key once the task reached the stream's terminal state; and when the
inner scheduler yields a subscription, the stream is either CacheCheck
followed by a terminal CompletedFromCache, or CacheCheck followed by exactly
the states the inner scheduler emitted. -/
theorem c4_add_action_stream (acStore : List (DigestInfo × ProtoActionResult))
    (casStore : MemoryStore) (innerResponse : Except Error (List ActionState))
    (mapBefore : List ActionInfoHashKey) (actionInfo : ActionInfo)
    (hskip : actionInfo.skipCacheLookup = false) :
    ∃ out, CacheLookupScheduler.addAction acStore casStore innerResponse mapBefore
        actionInfo = .ok out ∧
      out.emitted.head? =
        some { uniqueQualifier := actionInfo.uniqueQualifier, stage := .cacheCheck } ∧
      containsKey out.finalMap actionInfo.uniqueQualifier = false ∧
      ∀ states, innerResponse = .ok states →
        (∃ ar, out.emitted =
          [{ uniqueQualifier := actionInfo.uniqueQualifier, stage := .cacheCheck },
           { uniqueQualifier := actionInfo.uniqueQualifier,
             stage := .completedFromCache ar }]) ∨
        out.emitted =
          { uniqueQualifier := actionInfo.uniqueQualifier, stage := .cacheCheck }
            :: states := by
  unfold CacheLookupScheduler.addAction
  rw [hskip]
  simp only [Bool.false_eq_true, if_false]
  cases hac : getActionFromStore acStore actionInfo.uniqueQualifier.digest with
  | some protoActionResult =>
    by_cases hval : validateOutputsExist casStore protoActionResult = true
    · dsimp only
      rw [if_pos hval]
      refine ⟨_, rfl, rfl, containsKey_removeKey _ _, fun states hstates => ?_⟩
      exact Or.inl ⟨protoActionResult, rfl⟩
    · dsimp only
      rw [if_neg hval]
      cases innerResponse with
      | ok states =>
        refine ⟨_, rfl, rfl, containsKey_removeKey _ _, fun states2 hstates2 => ?_⟩
        cases hstates2
        exact Or.inr rfl
      | error e =>
        refine ⟨_, rfl, rfl, containsKey_removeKey _ _, fun states2 hstates2 => ?_⟩
        cases hstates2
  | none =>
    cases innerResponse with
    | ok states =>
      refine ⟨_, rfl, rfl, containsKey_removeKey _ _, fun states2 hstates2 => ?_⟩
      cases hstates2
      exact Or.inr rfl
    | error e =>
      refine ⟨_, rfl, rfl, containsKey_removeKey _ _, fun states2 hstates2 => ?_⟩
      cases hstates2

/-- The concrete action of the C4 witness. -/
def actionInfoC4 : ActionInfo :=
  { uniqueQualifier :=
      { instanceName := "main",
        digest := { sizeBytes := 3, packedHash := List.replicate 32 4,
                    trustSize := false, strHash := none },
        salt := 0 },
    skipCacheLookup := false }

/-- C4 witness: the theorem instantiated at an empty AC, empty CAS, an inner
scheduler that yields an empty stream, and an empty in-flight map. -/
theorem c4_witness :
    ∃ out, CacheLookupScheduler.addAction [] ⟨[]⟩ (.ok []) [] actionInfoC4 = .ok out ∧
      out.emitted.head? =
        some { uniqueQualifier := actionInfoC4.uniqueQualifier, stage := .cacheCheck } ∧
      containsKey out.finalMap actionInfoC4.uniqueQualifier = false ∧
      ∀ states, (Except.ok [] : Except Error (List ActionState)) = .ok states →
        (∃ ar, out.emitted =
          [{ uniqueQualifier := actionInfoC4.uniqueQualifier, stage := .cacheCheck },
           { uniqueQualifier := actionInfoC4.uniqueQualifier,
             stage := .completedFromCache ar }]) ∨
        out.emitted =
          { uniqueQualifier := actionInfoC4.uniqueQualifier, stage := .cacheCheck }
            :: states :=
  c4_add_action_stream [] ⟨[]⟩ (.ok []) [] actionInfoC4 rfl

/-- C5: when the AC holds a result for the action's digest but at least one
of its required output digests (an output file digest or an output directory
tree digest) is absent from the CAS, add_action forwards the action to the
inner scheduler and the stream never carries CompletedFromCache (given that
the inner scheduler, being a real scheduler, emits none itself). -/
theorem c5_missing_outputs_fall_through (acStore : List (DigestInfo × ProtoActionResult))
    (casStore : MemoryStore) (innerResponse : Except Error (List ActionState))
    (mapBefore : List ActionInfoHashKey) (actionInfo : ActionInfo)
    (protoActionResult : ProtoActionResult) (pd : ProtoDigest) (d : DigestInfo)
    (hskip : actionInfo.skipCacheLookup = false)
    (hac : getActionFromStore acStore actionInfo.uniqueQualifier.digest =
      some protoActionResult)
    (hreq : pd ∈ requiredDigests protoActionResult)
    (hparse : DigestInfo.tryFromProto pd = .ok d)
    (habsent : casStore.hasOpt d = none)
    (hinner : ∀ states, innerResponse = .ok states →
      ∀ s ∈ states, s.stage.isCompletedFromCache = false) :
    ∃ out, CacheLookupScheduler.addAction acStore casStore innerResponse mapBefore
        actionInfo = .ok out ∧
      out.forwardedToInner = true ∧
      ∀ s ∈ out.emitted, s.stage.isCompletedFromCache = false := by
  have hval : validateOutputsExist casStore protoActionResult = false := by
    rw [Bool.eq_false_iff]
    intro hall
    have := List.all_eq_true.mp hall pd hreq
    rw [hparse] at this
    simp [habsent] at this
  unfold CacheLookupScheduler.addAction
  rw [hskip]
  simp only [Bool.false_eq_true, if_false]
  rw [hac]
  dsimp only
  rw [if_neg (by simp [hval])]
  cases innerResponse with
  | ok states =>
    refine ⟨_, rfl, rfl, ?_⟩
    intro s hs
    rcases List.mem_cons.mp hs with rfl | hs
    · rfl
    · exact hinner states rfl s hs
  | error e =>
    refine ⟨_, rfl, rfl, ?_⟩
    intro s hs
    rcases List.mem_cons.mp hs with rfl | hs
    · rfl
    · simp only [List.mem_singleton] at hs
      rw [hs]
      rfl

/-- The action of the C5 witness; its digest is the key into the seeded AC. -/
def actionInfoC5 : ActionInfo :=
  { uniqueQualifier :=
      { instanceName := "main",
        digest := { sizeBytes := 2, packedHash := List.replicate 32 5,
                    trustSize := false, strHash := none },
        salt := 0 },
    skipCacheLookup := false }

/-- The tree digest the seeded action result requires but the CAS lacks
(hash 0x08 times 32, size 1, mirroring spec scenario S2). -/
def treeDigestC5 : ProtoDigest :=
  { hash := hexEncode (List.replicate 32 8), sizeBytes := 1 }

/-- The AC contents of the C5 witness: one action result whose only output
directory references treeDigestC5. -/
def acStoreC5 : List (DigestInfo × ProtoActionResult) :=
  [(actionInfoC5.uniqueQualifier.digest,
    { outputFiles := [], outputDirectories := [{ treeDigest := some treeDigestC5 }] })]

/-- C5 witness: with the AC seeded and the CAS empty, the theorem applies; the
call forwards to the inner scheduler and the stream holds no
CompletedFromCache. -/
theorem c5_witness :
    ∃ out, CacheLookupScheduler.addAction acStoreC5 ⟨[]⟩ (.ok [])
        [] actionInfoC5 = .ok out ∧
      out.forwardedToInner = true ∧
      ∀ s ∈ out.emitted, s.stage.isCompletedFromCache = false :=
  c5_missing_outputs_fall_through acStoreC5 ⟨[]⟩ (.ok []) [] actionInfoC5
    { outputFiles := [], outputDirectories := [{ treeDigest := some treeDigestC5 }] }
    treeDigestC5
    { sizeBytes := 1, packedHash := List.replicate 32 8, trustSize := false,
      strHash := some treeDigestC5.hash }
    rfl (by decide) (by decide) rfl rfl
    (fun states hstates => by
      cases hstates
      intro s hs
      cases hs)

/-! ## RunningActionImpl::cleanup (src/cas/worker/running_actions_manager.rs) -/

/-- The observable steps of RunningActionImpl::cleanup, in program order. -/
inductive CleanupOp where
  | removeDirAll
  | setDidCleanup
  | deregister
deriving DecidableEq, Repr

/-- RunningActionImpl::cleanup.  Inputs are the outcomes the environment
deals the two effects (remove_dir_all of the working directory, then
cleanup_action on the manager); cleanup itself takes no prior-step outcome,
so it behaves the same whether or not an earlier lifecycle step failed.  It
returns the trace of performed steps, the did_cleanup flag, and the merged
result: a deregistration error absorbs the removal result through
ResultExt::merge, otherwise the removal result stands. -/
def RunningActionImpl.cleanup (removeDirResult : Except Error Unit)
    (deregisterResult : Except Error Unit) :
    List CleanupOp × Bool × Except Error Unit :=
  let trace := [CleanupOp.removeDirAll, CleanupOp.setDidCleanup, CleanupOp.deregister]
  match deregisterResult with
  | .error e => (trace, true, mergeResult (Except.error e : Except Error Unit) removeDirResult)
  | .ok _ => (trace, true, removeDirResult)

/-- C7: cleanup always attempts the working-directory removal first (its
trace starts with remove_dir_all for every outcome combination, and in
particular independently of any prior lifecycle failure, which cleanup does
not even consult), it always sets did_cleanup, and both failures are
reported: removal alone failing returns the removal error, deregistration
alone failing returns the deregistration error, and both failing returns one
error merging the two (deregistration first, with the message frames of
both). -/
theorem c7_cleanup_merges_errors (removeDirResult deregisterResult : Except Error Unit)
    (_priorLifecycleStepFailed : Bool) :
    (RunningActionImpl.cleanup removeDirResult deregisterResult).1.head? =
      some CleanupOp.removeDirAll ∧
    (RunningActionImpl.cleanup removeDirResult deregisterResult).2.1 = true ∧
    (RunningActionImpl.cleanup removeDirResult deregisterResult).2.2 =
      (match deregisterResult, removeDirResult with
       | .error de, .error re =>
         .error { code := de.code, messages := de.messages ++ re.messages }
       | .error de, .ok _ => .error de
       | .ok _, r => r) := by
  cases removeDirResult <;> cases deregisterResult <;>
    exact ⟨rfl, rfl, rfl⟩

/-! ## Scheduler factory (src/cas/scheduler/default_scheduler_factory.rs) -/

/-- The scheduler configuration tree the factory consumes. -/
inductive SchedulerCfg where
  | simple
  | grpc
  | cacheLookup (scheduler : SchedulerCfg)
  | propertyModifier (scheduler : SchedulerCfg)
deriving DecidableEq, Repr

/-- The factory's bookkeeping: the visited-pointer set guarding metric
registration, the register_metrics invocations in order (each recording the
identity of the underlying scheduler object), and a fresh-identity counter
standing in for allocation addresses. -/
structure FactoryState where
  visitedSchedulers : List Nat
  registerMetricsCalls : List Nat
  nextId : Nat
deriving DecidableEq, Repr

/-- Allocate a fresh object identity (a new Arc's address). -/
def freshId (st : FactoryState) : Nat × FactoryState :=
  (st.nextId, { st with nextId := st.nextId + 1 })

/-- The registration epilogue of inner_scheduler_factory (lines 94-115): the
action scheduler is registered if its pointer was not yet visited; the worker
scheduler likewise — but then register_metrics is invoked on the worker
scheduler once more, unconditionally. -/
def registerPhase (scheduler : Option Nat × Option Nat) (st : FactoryState) :
    FactoryState :=
  let st1 :=
    match scheduler.1 with
    | some actionId =>
      if st.visitedSchedulers.contains actionId then st
      else { st with visitedSchedulers := actionId :: st.visitedSchedulers,
                     registerMetricsCalls := st.registerMetricsCalls ++ [actionId] }
    | none => st
  match scheduler.2 with
  | some workerId =>
    let st2 :=
      if st1.visitedSchedulers.contains workerId then st1
      else { st1 with visitedSchedulers := workerId :: st1.visitedSchedulers,
                      registerMetricsCalls := st1.registerMetricsCalls ++ [workerId] }
    { st2 with registerMetricsCalls := st2.registerMetricsCalls ++ [workerId] }
  | none => st1

/-- inner_scheduler_factory: build the scheduler pair for a configuration (a
SimpleScheduler is one object serving both interfaces; grpc is action-only;
cache_lookup and property_modifier wrap the nested action scheduler in a new
object and pass the nested worker scheduler through), then run the
registration epilogue. -/
def innerSchedulerFactory : SchedulerCfg → FactoryState →
    (Option Nat × Option Nat) × FactoryState
  | .simple, st =>
    let (id, st) := freshId st
    let scheduler := (some id, some id)
    (scheduler, registerPhase scheduler st)
  | .grpc, st =>
    let (id, st) := freshId st
    let scheduler := (some id, none)
    (scheduler, registerPhase scheduler st)
  | .cacheLookup inner, st =>
    let (nested, st) := innerSchedulerFactory inner st
    let (id, st) := freshId st
    let scheduler := (some id, nested.2)
    (scheduler, registerPhase scheduler st)
  | .propertyModifier inner, st =>
    let (nested, st) := innerSchedulerFactory inner st
    let (id, st) := freshId st
    let scheduler := (some id, nested.2)
    (scheduler, registerPhase scheduler st)

/-- The factory state before scheduler_factory runs. -/
def initialFactoryState : FactoryState :=
  { visitedSchedulers := [], registerMetricsCalls := [], nextId := 0 }

/-- C9 (code behavior at the failing input): building a simple scheduler — one
object implementing both the action and the worker interface — invokes
register_metrics on that object twice, not once: the visited-pointer set
suppresses the guarded worker-branch call, but the unconditional call that
follows it runs anyway. -/
theorem c9_simple_scheduler_registered_twice :
    (innerSchedulerFactory .simple initialFactoryState).1 = (some 0, some 0) ∧
    (innerSchedulerFactory .simple initialFactoryState).2.registerMetricsCalls.count 0
      = 2 := by
  constructor <;> rfl

end NativeLink
